import Mathlib

/-!
Verification of the rke2 bootstrap package (pkg/bootstrap/bootstrap.go and
the read-closer adapters) against its natural-language specification.

The Go code is embedded shallowly: pure helpers become Lean functions;
filesystem and network effects are modelled by explicit state passing over a
trace of operation calls, with the environment given as a `World` record of
response functions (a function of the call history and the arguments), so
that theorems quantify over every possible behaviour of the OS and of the
external libraries.  Machine-level library calls that are external to the
repository (sha256, the OCI tarball reader) are parameters of the embedding.
-/

namespace RKE2

/-- Errors, mirroring Go error values: a primitive message, pkg/errors
wrapping, or a wrangler merr aggregate. -/
inductive Err where
  | prim (msg : String)
  | wrap (msg : String) (e : Err)
  | multi (es : List Err)
deriving Repr

/-- merr.NewErrors from rancher/wrangler: nil for an empty list, the sole
error when there is exactly one, an aggregate otherwise.  The Go version
filters out nil entries; the embedding only ever passes non-nil errors. -/
def merrNewErrors (errs : List Err) : Option Err :=
  match errs with
  | [] => none
  | [e] => some e
  | es => some (.multi es)

/-- filepath.Join for the two-argument uses in this package. -/
def pathJoin (a b : String) : String := a ++ "/" ++ b

/-- filepath.Dir: parent directory of a path. -/
def parentDir (p : String) : String :=
  match p.data.reverse.dropWhile (fun c => decide (c ≠ '/')) with
  | [] => "."
  | ['/'] => "/"
  | _ :: rest => ⟨rest.reverse⟩

/-- binDirForDigest returns the path to dataDir/data/refDigest/bin. -/
def binDirForDigest (dataDir refDigest : String) : String :=
  pathJoin (pathJoin (pathJoin dataDir "data") refDigest) "bin"

/-- manifestsDir returns the path to dataDir/server/manifests. -/
def manifestsDir (dataDir : String) : String :=
  pathJoin (pathJoin dataDir "server") "manifests"

/-- imagesDir returns the path to dataDir/agent/images. -/
def imagesDir (dataDir : String) : String :=
  pathJoin (pathJoin dataDir "agent") "images"

/-- symlinkBinDir returns the path to dataDir/bin. -/
def symlinkBinDir (dataDir : String) : String :=
  pathJoin dataDir "bin"

/-! ## Reference digest naming (releaseRefDigest) -/

/-- An image reference, mirroring go-containerregistry name.Reference:
either a tag (carrying TagStr and the full reference String), a digest
(carrying DigestStr and the full reference String), or any other shape. -/
inductive Ref where
  | tag (tagStr : String) (refString : String)
  | digest (digestStr : String) (refString : String)
  | other (refString : String)
deriving DecidableEq, Repr

/-- releasePattern.MatchString for the anchored regexp "^v[0-9]": the string
starts with the letter v followed by a decimal digit. -/
def releasePatternMatches (s : String) : Bool :=
  match s.data with
  | 'v' :: c :: _ => c.isDigit
  | _ => false

/-- hex digit character for a value below 16, lowercase as in encoding/hex. -/
def hexDigit (n : Nat) : Char :=
  if n < 10 then Char.ofNat (48 + n) else Char.ofNat (87 + n)

/-- hex.EncodeToString over a byte list. -/
def hexEncode (bs : List Nat) : String :=
  ⟨(bs.map (fun b => [hexDigit (b / 16 % 16), hexDigit (b % 16)])).flatten⟩

/-- splitFirst sep l splits l at the first occurrence of sep, the separator
removed; none when sep does not occur.  This is the List.Char core of
strings.SplitN with n = 2. -/
def splitFirst (sep : Char) : List Char → Option (List Char × List Char)
  | [] => none
  | c :: cs =>
    if c = sep then some ([], cs)
    else
      match splitFirst sep cs with
      | none => none
      | some (a, b) => some (c :: a, b)

/-- strings.SplitN str ":" 2 followed by the branch of releaseRefDigest:
the part after the first colon when one occurs, the whole string otherwise. -/
def digestValue (d : String) : String :=
  match splitFirst ':' d.data with
  | some (_, rest) => ⟨rest⟩
  | none => d

/-- releaseRefDigest returns a unique name for an image reference, embedded
from pkg/bootstrap/bootstrap.go.  sha256 is the external crypto/sha256
function, a parameter of the embedding, returning the 32 hash bytes. -/
def releaseRefDigest (sha256 : String → List Nat) (ref : Ref) : Except Err String :=
  match ref with
  | .tag t s =>
    if releasePatternMatches t then
      .ok (t ++ "-" ++ (hexEncode (sha256 s)).take 12)
    else
      .error (.prim "Runtime image is not a not a reference to a digest or version tag")
  | .digest d _ => .ok (digestValue d)
  | .other _ =>
    .error (.prim "Runtime image is not a not a reference to a digest or version tag")

theorem splitFirst_append (sep : Char) (l r : List Char) (hl : sep ∉ l) :
    splitFirst sep (l ++ sep :: r) = some (l, r) := by
  induction l with
  | nil => simp [splitFirst]
  | cons c cs ih =>
    have hc : c ≠ sep := fun h => hl (h ▸ List.mem_cons_self c cs)
    have hcs : sep ∉ cs := fun h => hl (List.mem_cons_of_mem c h)
    simp [splitFirst, hc, ih hcs]

theorem digestValue_split (alg hx : String) (h : ':' ∉ alg.data) :
    digestValue (alg ++ ":" ++ hx) = hx := by
  have hdata : (alg ++ ":" ++ hx).data = alg.data ++ ':' :: hx.data := by
    simp [String.data_append]
  simp [digestValue, hdata, splitFirst_append ':' alg.data hx.data h]

/-! ## Effectful operations: call traces and environment worlds

Stateful Go code is embedded by explicit state passing: the state is the
trace of operation calls issued so far, and the outcome of each call is
chosen by a `World`, a record of response functions of the call history and
the arguments.  Theorems quantify over all worlds, hence over every possible
behaviour of the OS and the external libraries. -/

/-- An image handle (the v1.Image values are not inspected by this package). -/
abbrev Img : Type := Nat

/-- One operation call issued by the bootstrap code, with its arguments. -/
inductive Call where
  | tempDir (dataDir : String)
  | extractImage (tempDir : String) (dirs : List (String × String))
  | closeReader
  | stat (p : String)
  | mkdirAll (p : String)
  | rename (src dst : String)
  | readDir (p : String)
  | removeAll (p : String)
  | walkFiles (p : String)
  | openArchive (file : String)
  | tarballImage (tag file : String)
  | preload
  | getRegistries
  | remotePull
  | dirExistsQ (p : String)
  | chmod (p : String) (mode : Nat)
  | setChartValuesCall (dataDir registry : String)
  | symlink (oldname newname : String)
deriving DecidableEq, Repr

/-- The environment: one response function per operation, each a function of
the call history at the moment of the call and of the arguments. -/
structure World where
  tempDirRes : List Call → String → Except Err String
  extractRes : List Call → String → Option Err
  statRes : List Call → String → Option Err
  mkdirAllRes : List Call → String → Option Err
  renameRes : List Call → String → String → Option Err
  readDirRes : List Call → String → Except Err (List String)
  removeAllRes : List Call → String → Option Err
  walkRes : List Call → String → Except Err (List String)
  tarballRes : List Call → String → String → Option Img
  preloadRes : List Call → Except Err Bool
  registriesRes : List Call → Option Err
  remoteRes : List Call → Option Err
  dirExistsRes : List Call → String → Bool
  chmodRes : List Call → String → Nat → Option Err
  setChartRes : List Call → String → String → Option Err
  symlinkRes : List Call → String → String → Option Err
  isExist : Err → Bool
  isNotExist : Err → Bool

def doTempDir (w : World) (tr : List Call) (dataDir : String) :
    List Call × Except Err String :=
  (tr ++ [.tempDir dataDir], w.tempDirRes tr dataDir)

def doExtractImage (w : World) (tr : List Call) (td : String)
    (dirs : List (String × String)) : List Call × Option Err :=
  (tr ++ [.extractImage td dirs], w.extractRes tr td)

def doCloseReader (tr : List Call) : List Call :=
  tr ++ [.closeReader]

def doStat (w : World) (tr : List Call) (p : String) : List Call × Option Err :=
  (tr ++ [.stat p], w.statRes tr p)

def doMkdirAll (w : World) (tr : List Call) (p : String) : List Call × Option Err :=
  (tr ++ [.mkdirAll p], w.mkdirAllRes tr p)

def doRename (w : World) (tr : List Call) (src dst : String) :
    List Call × Option Err :=
  (tr ++ [.rename src dst], w.renameRes tr src dst)

def doReadDir (w : World) (tr : List Call) (p : String) :
    List Call × Except Err (List String) :=
  (tr ++ [.readDir p], w.readDirRes tr p)

def doRemoveAll (w : World) (tr : List Call) (p : String) :
    List Call × Option Err :=
  (tr ++ [.removeAll p], w.removeAllRes tr p)

/-! ## extractToDirs (staging, atomic placement and the merge fallback)

Embedded from pkg/bootstrap/bootstrap.go lines 230-305.  The Go loop over
the dirs map is a loop over an association list here; `continue` with error
accumulation becomes collecting, and the bare `return err` after a failed
MkdirAll becomes an abort that carries the trace and the single error. -/

/-- moveFileLoop is the per-file merge fallback: each file of the staged
subtree is renamed into the destination; a rename failing because the
destination exists triggers one RemoveAll of the destination followed by one
retry of the rename; failures are wrapped and collected. -/
def moveFileLoop (w : World) (tr : List Call) (tempSource dest : String) :
    List String → List Call × List Err
  | [] => (tr, [])
  | f :: rest =>
    let src := pathJoin tempSource f
    let dst := pathJoin dest f
    match doRename w tr src dst with
    | (tr1, none) => moveFileLoop w tr1 tempSource dest rest
    | (tr1, some e) =>
      if w.isExist e then
        match doRemoveAll w tr1 dst with
        | (tr2, some e2) =>
          let (tr3, errs) := moveFileLoop w tr2 tempSource dest rest
          (tr3, .wrap ("failed to remove " ++ dst) e2 :: errs)
        | (tr2, none) =>
          match doRename w tr2 src dst with
          | (tr3, none) => moveFileLoop w tr3 tempSource dest rest
          | (tr3, some e3) =>
            let (tr4, errs) := moveFileLoop w tr3 tempSource dest rest
            (tr4, .wrap ("failed to rename " ++ src ++ " to " ++ dst) e3 :: errs)
      else
        let (tr2, errs) := moveFileLoop w tr1 tempSource dest rest
        (tr2, .wrap ("failed to rename " ++ src ++ " to " ++ dst) e :: errs)

/-- moveSubtree places one staged subtree: try the atomic rename; on an
IsExist failure fall back to the per-file merge; on any other failure record
the error for this subtree. -/
def moveSubtree (w : World) (tr : List Call) (tempSource dest : String) :
    List Call × List Err :=
  match doRename w tr tempSource dest with
  | (tr1, none) => (tr1, [])
  | (tr1, some e) =>
    if w.isExist e then
      match doReadDir w tr1 tempSource with
      | (tr2, .error e2) => (tr2, [e2])
      | (tr2, .ok files) => moveFileLoop w tr2 tempSource dest files
    else
      (tr1, [e])

/-- moveEntry processes one (source, dest) pair of the plan: a stat failure
on the staged source is recorded and the entry skipped (.inl with one error);
a missing destination parent is created, and a MkdirAll failure aborts the
whole loop (.inr), mirroring the bare return err in the Go source. -/
def moveEntry (w : World) (tr : List Call) (tempDir source dest : String) :
    (List Call × List Err) ⊕ (List Call × Err) :=
  let tempSource := pathJoin tempDir source
  match doStat w tr tempSource with
  | (tr1, some e) => .inl (tr1, [e])
  | (tr1, none) =>
    let destParent := parentDir dest
    match doStat w tr1 destParent with
    | (tr2, some _) =>
      match doMkdirAll w tr2 destParent with
      | (tr3, some e) => .inr (tr3, e)
      | (tr3, none) => .inl (moveSubtree w tr3 tempSource dest)
    | (tr2, none) => .inl (moveSubtree w tr2 tempSource dest)

/-- moveLoop runs moveEntry over the whole plan, accumulating the collected
errors in order; an abort from a failed MkdirAll stops the loop. -/
def moveLoop (w : World) (tr : List Call) (tempDir : String) :
    List (String × String) → (List Call × List Err) ⊕ (List Call × Err)
  | [] => .inl (tr, [])
  | (source, dest) :: rest =>
    match moveEntry w tr tempDir source dest with
    | .inr ab => .inr ab
    | .inl (tr1, errs1) =>
      match moveLoop w tr1 tempDir rest with
      | .inr ab => .inr ab
      | .inl (tr2, errs2) => .inl (tr2, errs1 ++ errs2)

/-- extractToDirs extracts image content into a fresh staging directory under
dataDir and moves it into place; the two deferred calls (imageReader.Close
and os.RemoveAll of the staging directory) run on every exit path after the
staging directory was created, in LIFO order. -/
def extractToDirs (w : World) (tr : List Call) (dataDir : String)
    (dirs : List (String × String)) : List Call × Option Err :=
  match doTempDir w tr dataDir with
  | (tr1, .error e) => (tr1, some e)
  | (tr1, .ok td) =>
    match doExtractImage w tr1 td dirs with
    | (tr2, some e) =>
      let tr3 := doCloseReader tr2
      let (tr4, _) := doRemoveAll w tr3 td
      (tr4, some e)
    | (tr2, none) =>
      match moveLoop w tr2 td dirs with
      | .inr (tr3, e) =>
        let tr4 := doCloseReader tr3
        let (tr5, _) := doRemoveAll w tr4 td
        (tr5, some e)
      | .inl (tr3, errs) =>
        let tr4 := doCloseReader tr3
        let (tr5, _) := doRemoveAll w tr4 td
        (tr5, merrNewErrors errs)

/-! ## Stage (pkg/bootstrap/bootstrap.go lines 85-157) -/

def doPreload (w : World) (tr : List Call) : List Call × Except Err Bool :=
  (tr ++ [.preload], w.preloadRes tr)

def doGetRegistries (w : World) (tr : List Call) : List Call × Option Err :=
  (tr ++ [.getRegistries], w.registriesRes tr)

def doRemotePull (w : World) (tr : List Call) : List Call × Option Err :=
  (tr ++ [.remotePull], w.remoteRes tr)

def doDirExists (w : World) (tr : List Call) (p : String) : List Call × Bool :=
  (tr ++ [.dirExistsQ p], w.dirExistsRes tr p)

def doChmod (w : World) (tr : List Call) (p : String) (mode : Nat) :
    List Call × Option Err :=
  (tr ++ [.chmod p mode], w.chmodRes tr p mode)

def doSetChartValues (w : World) (tr : List Call) (dataDir registry : String) :
    List Call × Option Err :=
  (tr ++ [.setChartValuesCall dataDir registry], w.setChartRes tr dataDir registry)

def doSymlink (w : World) (tr : List Call) (oldname newname : String) :
    List Call × Option Err :=
  (tr ++ [.symlink oldname newname], w.symlinkRes tr oldname newname)

/-- stageResolveRemote is the remote fallback block of Stage: load the
private registry configuration, then pull the image, wrapping either
failure with its context message. -/
def stageResolveRemote (w : World) (tr : List Call) (privateRegistry : String) :
    List Call × Option Err :=
  match doGetRegistries w tr with
  | (tr1, some e) =>
    (tr1, some (.wrap ("failed to load private registry configuration from "
      ++ privateRegistry) e))
  | (tr1, none) =>
    match doRemotePull w tr1 with
    | (tr2, some e) => (tr2, some (.wrap "failed to get runtime image" e))
    | (tr2, none) => (tr2, none)

/-- extractPaths is the extraction plan built by Stage: charts always map to
the manifests directory; bin maps to the per-identity bin directory only when
that directory does not already exist.  The Go map is an association list
here. -/
def extractPaths (dataDir refBinDir : String) (binExists : Bool) :
    List (String × String) :=
  if binExists then [("charts", manifestsDir dataDir)]
  else [("charts", manifestsDir dataDir), ("bin", refBinDir)]

/-- stageFinish is the tail of Stage from the dirExists check onward: build
the extraction plan, extract, fix permissions, patch the charts, and replace
the dataDir/bin symlink (the results of the last two calls are ignored, as in
the Go source).  493 is octal 0755. -/
def stageFinish (w : World) (tr : List Call)
    (dataDir registryName refBinDir : String) : List Call × Except Err String :=
  let (tr3, binExists) := doDirExists w tr refBinDir
  match extractToDirs w tr3 dataDir (extractPaths dataDir refBinDir binExists) with
  | (tr4, some e) => (tr4, .error (.wrap "failed to extract runtime image" e))
  | (tr4, none) =>
    match doChmod w tr4 refBinDir 493 with
    | (tr5, some e) => (tr5, .error e)
    | (tr5, none) =>
      match doSetChartValues w tr5 dataDir registryName with
      | (tr6, some e) =>
        (tr6, .error (.wrap "failed to set system-default-registry on HelmCharts" e))
      | (tr6, none) =>
        let (tr7, _) := doRemoveAll w tr6 (symlinkBinDir dataDir)
        let (tr8, _) := doSymlink w tr7 refBinDir (symlinkBinDir dataDir)
        (tr8, .ok refBinDir)

/-- Stage, embedded from the Go source.  The local-tarball preload and the
cache wrap are environment operations; registryName is
resolver.Registry.Name(). -/
def Stage (w : World) (sha256 : String → List Nat)
    (dataDir privateRegistry registryName : String) (ref : Ref) :
    List Call × Except Err String :=
  match releaseRefDigest sha256 ref with
  | .error e => ([], .error e)
  | .ok refDigest =>
    let refBinDir := binDirForDigest dataDir refDigest
    match doPreload w [] with
    | (tr1, .error e) => (tr1, .error e)
    | (tr1, .ok found) =>
      let (tr2, rerr) :=
        if found then (tr1, none) else stageResolveRemote w tr1 privateRegistry
      match rerr with
      | some e => (tr2, .error e)
      | none => stageFinish w tr2 dataDir registryName refBinDir

/-! ## Local image preload (preloadBootstrapImage, preloadFile) -/

def doWalk (w : World) (tr : List Call) (p : String) :
    List Call × Except Err (List String) :=
  (tr ++ [.walkFiles p], w.walkRes tr p)

def doTarball (w : World) (tr : List Call) (tag file : String) :
    List Call × Option Img :=
  (tr ++ [.tarballImage tag file], w.tarballRes tr tag file)

/-- strings.HasSuffix over the character lists of the two strings. -/
def endsWithL (s suf : String) : Bool :=
  suf.data.isSuffixOf s.data

/-- util.HasSuffixI from the k3s agent util package: lowercase the string and
each suffix and test with strings.HasSuffix (character-list model; the
lowercasing is per character, which agrees with Go on ASCII names). -/
def hasSuffixI (s : String) (suffixes : List String) : Bool :=
  suffixes.any (fun suf =>
    (suf.data.map Char.toLower).isSuffixOf (s.data.map Char.toLower))

/-- The archive container selected by the suffix switch of preloadFile. -/
inductive OpenerKind where
  | tar
  | lz4
  | bz2
  | gzip
  | zstd
deriving DecidableEq, Repr

/-- Outcome of the suffix switch of preloadFile: a .txt sidecar file, a
recognized archive container, or the unhandled default. -/
inductive SuffixSel where
  | txt
  | archive (k : OpenerKind)
  | unhandled
deriving DecidableEq, Repr

/-- selectSuffix is the switch of preloadFile (lines 377-428), with the case
order and the exact suffix strings of the source, including the dotless
"tar.zst" of the zstd case. -/
def selectSuffix (fileName : String) : SuffixSel :=
  if hasSuffixI fileName [".txt"] then .txt
  else if hasSuffixI fileName [".tar"] then .archive .tar
  else if hasSuffixI fileName [".tar.lz4"] then .archive .lz4
  else if hasSuffixI fileName [".tar.bz2", ".tbz"] then .archive .bz2
  else if hasSuffixI fileName [".tar.gz", ".tgz"] then .archive .gzip
  else if hasSuffixI fileName ["tar.zst", ".tzst"] then .archive .zstd
  else .unhandled

/-- selectSuffixSpec is the suffix table as the specification states it: the
same switch with every suffix carrying its leading dot.  It exists only to be
compared with selectSuffix. -/
def selectSuffixSpec (fileName : String) : SuffixSel :=
  if hasSuffixI fileName [".txt"] then .txt
  else if hasSuffixI fileName [".tar"] then .archive .tar
  else if hasSuffixI fileName [".tar.lz4"] then .archive .lz4
  else if hasSuffixI fileName [".tar.bz2", ".tbz"] then .archive .bz2
  else if hasSuffixI fileName [".tar.gz", ".tgz"] then .archive .gzip
  else if hasSuffixI fileName [".tar.zst", ".tzst"] then .archive .zstd
  else .unhandled

/-- preloadFile embedded from the Go source: a .txt file yields no image and
no error before any opener is built; an unrecognized suffix is the error
"unhandled file type"; for a recognized archive the tarball lookup either
yields the image, or yields nothing (a failed open or absent tag is returned
as nil image and nil error after a debug log). -/
def preloadFile (w : World) (tr : List Call) (tag fileName : String) :
    List Call × (Option Img × Option Err) :=
  match selectSuffix fileName with
  | .txt => (tr, (none, none))
  | .unhandled => (tr, (none, some (.prim "unhandled file type")))
  | .archive _ =>
    match doTarball w tr tag fileName with
    | (tr1, some img) => (tr1, (some img, none))
    | (tr1, none) => (tr1, (none, none))

/-- scanLoop is the candidate loop of preloadBootstrapImage: the first file
yielding an image short-circuits the scan; a per-file error is logged and the
scan continues. -/
def scanLoop (w : World) (tr : List Call) (tag : String) :
    List String → List Call × (Option Img × Option Err)
  | [] => (tr, (none, none))
  | f :: rest =>
    match preloadFile w tr tag f with
    | (tr1, (some img, _)) => (tr1, (some img, none))
    | (tr1, (none, _)) => scanLoop w tr1 tag rest

/-- preloadBootstrapImage embedded from the Go source: a non-tag reference
returns no image and no error immediately; a missing images directory is the
not-found case, any other stat failure is an error; otherwise the directory
walk lists the candidate files and the scan loop runs over them. -/
def preloadBootstrapImage (w : World) (tr : List Call) (dataDir : String)
    (imageRef : Ref) : List Call × (Option Img × Option Err) :=
  match imageRef with
  | .tag t _ =>
    let idir := imagesDir dataDir
    match doStat w tr idir with
    | (tr1, some e) =>
      if w.isNotExist e then (tr1, (none, none)) else (tr1, (none, some e))
    | (tr1, none) =>
      match doWalk w tr1 idir with
      | (tr2, .error e) => (tr2, (none, some e))
      | (tr2, .ok files) => scanLoop w tr2 t files
  | _ => (tr, (none, none))

/-! ## Read-closer adapters (the unnamed source file of this package) -/

/-- Close results of the two underlying resources of an adapter: the
decompressor (for the multi adapter, the only one whose decompressor close
can fail) and the underlying file handle. -/
structure CloserEnv where
  rCloseErr : Option Err
  cCloseErr : Option Err

/-- Which of the two underlying resources have been closed. -/
structure CloseState where
  decoderClosed : Bool
  fileClosed : Bool
deriving DecidableEq, Repr

/-- zstdReadCloser.Close: the zstd decoder Close has no return value, then
the file handle is closed and its result returned. -/
def zstdReadCloserClose (env : CloserEnv) (st : CloseState) :
    CloseState × Option Err :=
  let st1 := { st with decoderClosed := true }
  ({ st1 with fileClosed := true }, env.cCloseErr)

/-- splitReadCloser.Close: the decompressor has no Close at all; only the
file handle is closed and its result returned. -/
def splitReadCloserClose (env : CloserEnv) (st : CloseState) :
    CloseState × Option Err :=
  ({ st with fileClosed := true }, env.cCloseErr)

/-- multiReadCloser.Close: both closes run, each non-nil failure is
collected, and merr.NewErrors aggregates the collection. -/
def multiReadCloserClose (env : CloserEnv) (st : CloseState) :
    CloseState × Option Err :=
  let st1 := { st with decoderClosed := true }
  let errs1 := match env.rCloseErr with
    | some e => [e]
    | none => []
  let st2 := { st1 with fileClosed := true }
  let errs2 := match env.cCloseErr with
    | some e => errs1 ++ [e]
    | none => errs1
  (st2, merrNewErrors errs2)

/-! ## Manifest rewriting (setChartValues, rewriteChart)

The serializer of the Go source is modelled as deterministic and lossless:
file contents are carried up to decoding as a `Doc`, with encoding of a
HelmChart the constructor `Doc.chart`. -/

/-- intstr.IntOrString: an int or a string value. -/
inductive IntOrString where
  | ofInt (n : Int)
  | ofString (s : String)
deriving DecidableEq, Repr

/-- The StrVal field: the empty string on an int-typed value, as for the Go
zero value returned by a map lookup of a missing key. -/
def iosStrVal : IntOrString → String
  | .ofInt _ => ""
  | .ofString s => s

/-- Map assignment m[k] = v over the association-list model of a Go map. -/
def setKey (m : List (String × IntOrString)) (k : String) (v : IntOrString) :
    List (String × IntOrString) :=
  match m with
  | [] => [(k, v)]
  | (k0, v0) :: rest => if k0 = k then (k, v) :: rest else (k0, v0) :: setKey rest k v

/-- Map lookup m[k], yielding the zero value on a missing key. -/
def getKey (m : List (String × IntOrString)) (k : String) : IntOrString :=
  match m with
  | [] => .ofInt 0
  | (k0, v0) :: rest => if k0 = k then v0 else getKey rest k

/-- The HelmChart fields touched by rewriteChart: the Set override map
(optional, mirroring a nil Go map) and the JobImage string. -/
structure HelmChart where
  set : Option (List (String × IntOrString))
  jobImage : String
deriving DecidableEq, Repr

/-- rewriteChartCore is the pure mutation block of rewriteChart (lines
503-525): initialize a nil Set, update the two override keys when their
StrVal differs from the desired value, recompute JobImage from the
system-default registry and the external helm.DefaultJobImage constant
(a parameter of the embedding), and report whether anything changed. -/
def rewriteChartCore (defaultJobImage dataDir systemDefaultRegistry : String)
    (c : HelmChart) : HelmChart × Bool :=
  let set0 := match c.set with
    | none => []
    | some m => m
  let b1 := iosStrVal (getKey set0 "global.rke2DataDir") ≠ dataDir
  let set1 := if b1 then setKey set0 "global.rke2DataDir" (.ofString dataDir) else set0
  let b2 := iosStrVal (getKey set1 "global.systemDefaultRegistry") ≠ systemDefaultRegistry
  let set2 :=
    if b2 then setKey set1 "global.systemDefaultRegistry" (.ofString systemDefaultRegistry)
    else set1
  let jobImage :=
    if systemDefaultRegistry ≠ "" then systemDefaultRegistry ++ "/" ++ defaultJobImage
    else defaultJobImage
  let b3 := c.jobImage ≠ jobImage
  ({ set := some set2, jobImage := jobImage }, b1 ∨ b2 ∨ b3)

/-- File contents up to decoding: a HelmChart document, a decodable document
of some other kind, or bytes the serializer cannot decode. -/
inductive Doc where
  | chart (c : HelmChart)
  | otherKind (s : String)
  | undecodable (s : String)
deriving DecidableEq, Repr

/-- rewriteChartFile is rewriteChart at the level of one file: decode
failures and non-HelmChart documents are skipped without error or write; a
HelmChart is rewritten in place only when the core reports a change.  The
returned Bool tells whether the file was written. -/
def rewriteChartFile (defaultJobImage dataDir systemDefaultRegistry : String)
    (content : Doc) : Doc × Bool :=
  match content with
  | .undecodable s => (.undecodable s, false)
  | .otherKind s => (.otherKind s, false)
  | .chart c =>
    match rewriteChartCore defaultJobImage dataDir systemDefaultRegistry c with
    | (c2, true) => (.chart c2, true)
    | (_, false) => (.chart c, false)

/-- Files considered by the walk of setChartValues: YAML-family suffixes. -/
def isYamlFile (p : String) : Bool :=
  endsWithL p ".yml" || endsWithL p ".yaml"

/-- setChartValues at the level of a directory listing: every YAML-family
file is put through rewriteChartFile; the second component lists the paths of
the files written. -/
def setChartValuesModel (defaultJobImage dataDir systemDefaultRegistry : String)
    (files : List (String × Doc)) : List (String × Doc) × List String :=
  match files with
  | [] => ([], [])
  | (p, d) :: rest =>
    let (rest2, written) :=
      setChartValuesModel defaultJobImage dataDir systemDefaultRegistry rest
    if isYamlFile p then
      match rewriteChartFile defaultJobImage dataDir systemDefaultRegistry d with
      | (d2, true) => ((p, d2) :: rest2, p :: written)
      | (d2, false) => ((p, d2) :: rest2, written)
    else
      ((p, d) :: rest2, written)

/-! ## Concrete worlds used for counterexamples and witnesses -/

/-- A world in which everything succeeds: the preload finds the image, the
per-identity bin directory does not exist yet, and every filesystem call
returns no error. -/
def okWorld : World where
  tempDirRes := fun _ _ => .ok "/data/runtime-1"
  extractRes := fun _ _ => none
  statRes := fun _ _ => none
  mkdirAllRes := fun _ _ => none
  renameRes := fun _ _ _ => none
  readDirRes := fun _ _ => .ok []
  removeAllRes := fun _ _ => none
  walkRes := fun _ _ => .ok ["a.tar", "b.tar"]
  tarballRes := fun _ _ file => if file = "b.tar" then some 7 else none
  preloadRes := fun _ => .ok true
  registriesRes := fun _ => none
  remoteRes := fun _ => none
  dirExistsRes := fun _ _ => false
  chmodRes := fun _ _ _ => none
  setChartRes := fun _ _ _ => none
  symlinkRes := fun _ _ _ => none
  isExist := fun _ => false
  isNotExist := fun _ => false

/-- A world like okWorld except that the per-identity bin directory already
exists, so that a re-run of Stage skips binary extraction. -/
def rerunWorld : World :=
  { okWorld with dirExistsRes := fun _ _ => true }

/-- A world in which the images directory does not exist: its stat fails and
the failure is recognized by isNotExist. -/
def noImagesWorld : World :=
  { okWorld with
    statRes := fun _ _ => some (.prim "enoent")
    isNotExist := fun _ => true }

/-- A world in which the destination parent of the first planned subtree
neither exists nor can be created, while every rename would succeed: the
placement of the first subtree dies in MkdirAll. -/
def abortWorld : World :=
  { okWorld with
    statRes := fun _ p => if p = "/dst" then some (.prim "statfail") else none
    mkdirAllRes := fun _ _ => some (.prim "mkdirfail") }

/-- A world exercising the merge fallback: the staged source of subtree a is
absent; the atomic rename of subtree b fails because the destination exists;
its single file f also collides, and the rename of f succeeds exactly after
the destination file was removed. -/
def mergeWorld : World :=
  { okWorld with
    statRes := fun _ p => if p = "/t/a" then some (.prim "missing") else none
    tempDirRes := fun _ _ => .ok "/t"
    renameRes := fun tr src dst =>
      if src = "/t/b" then some (.prim "exists")
      else if src = "/t/b/f" then
        if Call.removeAll dst ∈ tr then none else some (.prim "exists")
      else none
    readDirRes := fun _ p => if p = "/t/b" then .ok ["f"] else .ok []
    isExist := fun e =>
      match e with
      | .prim m => m == "exists"
      | _ => false }

/-! ## Helper lemmas: every operation only appends to the trace -/

/-- The trace carried by either outcome of moveEntry or moveLoop. -/
def sumTrace : (List Call × List Err) ⊕ (List Call × Err) → List Call
  | .inl (t, _) => t
  | .inr (t, _) => t

theorem moveFileLoop_trace_extend (w : World) (ts d : String) :
    ∀ (fs : List String) (tr : List Call),
      ∃ e, (moveFileLoop w tr ts d fs).1 = tr ++ e := by
  intro fs
  induction fs with
  | nil => intro tr; exact ⟨[], by simp [moveFileLoop]⟩
  | cons f rest ih =>
    intro tr
    simp only [moveFileLoop, doRename, doRemoveAll]
    cases h1 : w.renameRes tr (pathJoin ts f) (pathJoin d f) with
    | none =>
      obtain ⟨e, he⟩ := ih (tr ++ [.rename (pathJoin ts f) (pathJoin d f)])
      refine ⟨[.rename (pathJoin ts f) (pathJoin d f)] ++ e, ?_⟩
      rw [he, List.append_assoc]
    | some err =>
      dsimp only
      by_cases hie : w.isExist err = true
      · rw [if_pos hie]
        cases h2 : w.removeAllRes (tr ++ [.rename (pathJoin ts f) (pathJoin d f)])
            (pathJoin d f) with
        | some e2 =>
          obtain ⟨e, he⟩ := ih (tr ++ [.rename (pathJoin ts f) (pathJoin d f),
            .removeAll (pathJoin d f)])
          refine ⟨[.rename (pathJoin ts f) (pathJoin d f),
            .removeAll (pathJoin d f)] ++ e, ?_⟩
          simp [he]
        | none =>
          cases h3 : w.renameRes (tr ++ [.rename (pathJoin ts f) (pathJoin d f),
              .removeAll (pathJoin d f)]) (pathJoin ts f) (pathJoin d f) with
          | none =>
            obtain ⟨e, he⟩ := ih (tr ++ [.rename (pathJoin ts f) (pathJoin d f),
              .removeAll (pathJoin d f), .rename (pathJoin ts f) (pathJoin d f)])
            refine ⟨[.rename (pathJoin ts f) (pathJoin d f), .removeAll (pathJoin d f),
              .rename (pathJoin ts f) (pathJoin d f)] ++ e, ?_⟩
            simp [h3, he]
          | some e3 =>
            obtain ⟨e, he⟩ := ih (tr ++ [.rename (pathJoin ts f) (pathJoin d f),
              .removeAll (pathJoin d f), .rename (pathJoin ts f) (pathJoin d f)])
            refine ⟨[.rename (pathJoin ts f) (pathJoin d f), .removeAll (pathJoin d f),
              .rename (pathJoin ts f) (pathJoin d f)] ++ e, ?_⟩
            simp [h3, he]
      · rw [if_neg hie]
        obtain ⟨e, he⟩ := ih (tr ++ [.rename (pathJoin ts f) (pathJoin d f)])
        refine ⟨[.rename (pathJoin ts f) (pathJoin d f)] ++ e, ?_⟩
        simp [he]

theorem moveSubtree_trace_extend (w : World) (tr : List Call) (ts d : String) :
    ∃ e, (moveSubtree w tr ts d).1 = tr ++ e := by
  simp only [moveSubtree, doRename, doReadDir]
  cases h1 : w.renameRes tr ts d with
  | none => exact ⟨[.rename ts d], rfl⟩
  | some err =>
    dsimp only
    by_cases hie : w.isExist err = true
    · rw [if_pos hie]
      cases h2 : w.readDirRes (tr ++ [Call.rename ts d]) ts with
      | error e2 =>
        refine ⟨[.rename ts d, .readDir ts], ?_⟩
        simp
      | ok files =>
        obtain ⟨e, he⟩ := moveFileLoop_trace_extend w ts d files
          (tr ++ [.rename ts d, .readDir ts])
        refine ⟨[.rename ts d, .readDir ts] ++ e, ?_⟩
        simp [he]
    · rw [if_neg hie]
      exact ⟨[.rename ts d], rfl⟩

theorem moveEntry_trace_extend (w : World) (tr : List Call)
    (td source dest : String) :
    ∃ e, sumTrace (moveEntry w tr td source dest) = tr ++ e := by
  simp only [moveEntry, doStat, doMkdirAll]
  cases h1 : w.statRes tr (pathJoin td source) with
  | some e1 => exact ⟨[.stat (pathJoin td source)], rfl⟩
  | none =>
    cases h2 : w.statRes (tr ++ [Call.stat (pathJoin td source)]) (parentDir dest) with
    | some e2 =>
      cases h3 : w.mkdirAllRes (tr ++ [Call.stat (pathJoin td source),
          Call.stat (parentDir dest)]) (parentDir dest) with
      | some e3 =>
        refine ⟨[.stat (pathJoin td source), .stat (parentDir dest),
          .mkdirAll (parentDir dest)], ?_⟩
        simp [sumTrace, h2, h3]
      | none =>
        obtain ⟨e, he⟩ := moveSubtree_trace_extend w
          (tr ++ [.stat (pathJoin td source), .stat (parentDir dest),
            .mkdirAll (parentDir dest)]) (pathJoin td source) dest
        refine ⟨[.stat (pathJoin td source), .stat (parentDir dest),
          .mkdirAll (parentDir dest)] ++ e, ?_⟩
        simp [sumTrace, h2, h3, he]
    | none =>
      obtain ⟨e, he⟩ := moveSubtree_trace_extend w
        (tr ++ [.stat (pathJoin td source), .stat (parentDir dest)])
        (pathJoin td source) dest
      refine ⟨[.stat (pathJoin td source), .stat (parentDir dest)] ++ e, ?_⟩
      simp [sumTrace, h2, he]

theorem moveLoop_trace_extend (w : World) (td : String) :
    ∀ (dirs : List (String × String)) (tr : List Call),
      ∃ e, sumTrace (moveLoop w tr td dirs) = tr ++ e := by
  intro dirs
  induction dirs with
  | nil => intro tr; exact ⟨[], by simp [moveLoop, sumTrace]⟩
  | cons hd rest ih =>
    intro tr
    obtain ⟨source, dest⟩ := hd
    simp only [moveLoop]
    cases h1 : moveEntry w tr td source dest with
    | inr ab =>
      obtain ⟨e1, he1⟩ := moveEntry_trace_extend w tr td source dest
      rw [h1] at he1
      obtain ⟨t2, err2⟩ := ab
      simp only [sumTrace] at he1 ⊢
      exact ⟨e1, he1⟩
    | inl res =>
      obtain ⟨tr1, errs1⟩ := res
      obtain ⟨e1, he1⟩ := moveEntry_trace_extend w tr td source dest
      rw [h1] at he1
      simp only [sumTrace] at he1
      subst he1
      obtain ⟨e2, he2⟩ := ih (tr ++ e1)
      cases h2 : moveLoop w (tr ++ e1) td rest with
      | inr ab =>
        rw [h2] at he2
        obtain ⟨t2, err2⟩ := ab
        simp only [sumTrace] at he2
        exact ⟨e1 ++ e2, by simp [sumTrace, h2, he2]⟩
      | inl res2 =>
        obtain ⟨tr2, errs2⟩ := res2
        rw [h2] at he2
        simp only [sumTrace] at he2
        exact ⟨e1 ++ e2, by simp [sumTrace, h2, he2]⟩

theorem extractToDirs_trace_extend (w : World) (tr : List Call)
    (dataDir : String) (dirs : List (String × String)) :
    ∃ e, (extractToDirs w tr dataDir dirs).1 = tr ++ e := by
  simp only [extractToDirs, doTempDir, doExtractImage, doCloseReader, doRemoveAll]
  cases h1 : w.tempDirRes tr dataDir with
  | error e1 => exact ⟨[.tempDir dataDir], by simp [h1]⟩
  | ok td =>
    cases h2 : w.extractRes (tr ++ [.tempDir dataDir]) td with
    | some e2 =>
      exact ⟨[.tempDir dataDir, .extractImage td dirs, .closeReader, .removeAll td],
        by simp [h1, h2]⟩
    | none =>
      obtain ⟨e, he⟩ := moveLoop_trace_extend w td dirs
        (tr ++ [.tempDir dataDir, .extractImage td dirs])
      cases h3 : moveLoop w (tr ++ [.tempDir dataDir, .extractImage td dirs]) td dirs with
      | inr ab =>
        rw [h3] at he
        obtain ⟨tr3, e3⟩ := ab
        simp only [sumTrace] at he
        exact ⟨[.tempDir dataDir, .extractImage td dirs] ++ e ++
          [.closeReader, .removeAll td], by simp [h1, h2, h3, he]⟩
      | inl res =>
        rw [h3] at he
        obtain ⟨tr3, errs⟩ := res
        simp only [sumTrace] at he
        exact ⟨[.tempDir dataDir, .extractImage td dirs] ++ e ++
          [.closeReader, .removeAll td], by simp [h1, h2, h3, he]⟩

theorem stageFinish_trace_extend (w : World) (tr : List Call)
    (dataDir registryName refBinDir : String) :
    ∃ e, (stageFinish w tr dataDir registryName refBinDir).1 = tr ++ e := by
  simp only [stageFinish, doDirExists, doChmod, doSetChartValues, doRemoveAll, doSymlink]
  obtain ⟨e, he⟩ := extractToDirs_trace_extend w (tr ++ [.dirExistsQ refBinDir]) dataDir
    (extractPaths dataDir refBinDir (w.dirExistsRes tr refBinDir))
  cases h1 : extractToDirs w (tr ++ [.dirExistsQ refBinDir]) dataDir
      (extractPaths dataDir refBinDir (w.dirExistsRes tr refBinDir)) with
  | mk tr4 o =>
    rw [h1] at he
    simp only at he
    cases o with
    | some e4 =>
      refine ⟨[.dirExistsQ refBinDir] ++ e, ?_⟩
      try simp only [h1]
      try dsimp only
      rw [he]
      simp
    | none =>
      cases h2 : w.chmodRes tr4 refBinDir 493 with
      | some e5 =>
        refine ⟨[.dirExistsQ refBinDir] ++ e ++ [.chmod refBinDir 493], ?_⟩
        try simp only [h1]
        try simp only [h2]
        try dsimp only
        rw [he]
        simp
      | none =>
        cases h3 : w.setChartRes (tr4 ++ [.chmod refBinDir 493]) dataDir registryName with
        | some e6 =>
          refine ⟨[.dirExistsQ refBinDir] ++ e ++ [.chmod refBinDir 493,
            .setChartValuesCall dataDir registryName], ?_⟩
          try simp only [h1]
          try simp only [h2]
          try simp only [h3]
          try dsimp only
          rw [he]
          simp
        | none =>
          refine ⟨[.dirExistsQ refBinDir] ++ e ++ [.chmod refBinDir 493,
            .setChartValuesCall dataDir registryName, .removeAll (symlinkBinDir dataDir),
            .symlink refBinDir (symlinkBinDir dataDir)], ?_⟩
          try simp only [h1]
          try simp only [h2]
          try simp only [h3]
          try dsimp only
          rw [he]
          simp

/-! ## C1 -/

/-- C1: releaseRefDigest maps a tag matching the release pattern to the tag,
a dash, and the first 12 hex characters of the sha256 of the reference
string; maps a digest of form alg:hex to hex; and is deterministic across
calls on equal references. -/
theorem C1_release_identity (sha256 : String → List Nat) :
    (∀ t s, releasePatternMatches t = true →
      releaseRefDigest sha256 (.tag t s) =
        .ok (t ++ "-" ++ (hexEncode (sha256 s)).take 12)) ∧
    (∀ alg hx s, ':' ∉ alg.data →
      releaseRefDigest sha256 (.digest (alg ++ ":" ++ hx) s) = .ok hx) ∧
    (∀ r1 r2 : Ref, r1 = r2 →
      releaseRefDigest sha256 r1 = releaseRefDigest sha256 r2) := by
  refine ⟨?_, ?_, ?_⟩
  · intro t s h
    simp [releaseRefDigest, h]
  · intro alg hx s h
    simp [releaseRefDigest, digestValue_split alg hx h]
  · intro r1 r2 h
    rw [h]

/-- Witness for C1 at the concrete inputs of the spec example: the tag
v1.2.3 and the digest sha256:deadbeef, with a stand-in hash function. -/
theorem C1_release_identity_witness :
    releaseRefDigest (fun _ => List.range 32) (.tag "v1.2.3" "registry/repo:v1.2.3") =
      .ok ("v1.2.3" ++ "-" ++
        (hexEncode ((fun _ : String => List.range 32) "registry/repo:v1.2.3")).take 12) ∧
    releaseRefDigest (fun _ => List.range 32)
      (.digest ("sha256" ++ ":" ++ "deadbeef") "registry/repo@sha256:deadbeef") =
        .ok "deadbeef" := by
  refine ⟨?_, ?_⟩
  · exact (C1_release_identity (fun _ => List.range 32)).1 "v1.2.3"
      "registry/repo:v1.2.3" (by decide)
  · exact (C1_release_identity (fun _ => List.range 32)).2.1 "sha256" "deadbeef"
      "registry/repo@sha256:deadbeef" (by decide)

/-! ## C7 -/

/-- C7: every adapter close closes the underlying file handle; the split and
zstd adapters (whose decompressors have no closable-with-error contract)
close it and return no error of their own, so their close returns no error
whenever the handle close succeeds; the multi adapter returns the aggregate
of both failures when both its decompressor close and the handle close
fail. -/
theorem C7_close_adapters (env : CloserEnv) (st : CloseState) :
    ((splitReadCloserClose env st).1.fileClosed = true ∧
      (env.cCloseErr = none → (splitReadCloserClose env st).2 = none)) ∧
    ((zstdReadCloserClose env st).1.fileClosed = true ∧
      (zstdReadCloserClose env st).1.decoderClosed = true ∧
      (env.cCloseErr = none → (zstdReadCloserClose env st).2 = none)) ∧
    ((multiReadCloserClose env st).1.fileClosed = true ∧
      (multiReadCloserClose env st).1.decoderClosed = true ∧
      ∀ e1 e2, env.rCloseErr = some e1 → env.cCloseErr = some e2 →
        (multiReadCloserClose env st).2 = some (.multi [e1, e2])) := by
  refine ⟨⟨rfl, ?_⟩, ⟨rfl, rfl, ?_⟩, ⟨rfl, rfl, ?_⟩⟩
  · intro h
    simp [splitReadCloserClose, h]
  · intro h
    simp [zstdReadCloserClose, h]
  · intro e1 e2 h1 h2
    simp [multiReadCloserClose, h1, h2, merrNewErrors]

/-- Witness for C7 at concrete close results: a clean file close for the
split adapter, and a double failure for the multi adapter. -/
theorem C7_close_adapters_witness :
    (splitReadCloserClose ⟨none, none⟩ ⟨false, false⟩).2 = none ∧
    (multiReadCloserClose ⟨some (.prim "r"), some (.prim "c")⟩ ⟨false, false⟩).2 =
      some (.multi [.prim "r", .prim "c"]) := by
  refine ⟨?_, ?_⟩
  · exact (C7_close_adapters ⟨none, none⟩ ⟨false, false⟩).1.2 rfl
  · exact (C7_close_adapters ⟨some (.prim "r"), some (.prim "c")⟩
      ⟨false, false⟩).2.2.2.2 (.prim "r") (.prim "c") rfl rfl

/-! ## C5 -/

/-- C5: the local image lookup returns not-found (no image, no error) rather
than an error when the images directory does not exist; a candidate file
yielding no image leaves the scan continuing with the next file; the first
file yielding an image short-circuits the scan and that image is returned
with no error. -/
theorem C5_preload_scan (w : World) :
    (∀ tr dataDir t s e, w.statRes tr (imagesDir dataDir) = some e →
      w.isNotExist e = true →
      preloadBootstrapImage w tr dataDir (.tag t s) =
        (tr ++ [.stat (imagesDir dataDir)], (none, none))) ∧
    (∀ tr tag f rest tr1 oe, preloadFile w tr tag f = (tr1, (none, oe)) →
      scanLoop w tr tag (f :: rest) = scanLoop w tr1 tag rest) ∧
    (∀ tr tag f rest tr1 img oe, preloadFile w tr tag f = (tr1, (some img, oe)) →
      scanLoop w tr tag (f :: rest) = (tr1, (some img, none))) := by
  refine ⟨?_, ?_, ?_⟩
  · intro tr dataDir t s e h1 h2
    simp [preloadBootstrapImage, doStat, h1, h2]
  · intro tr tag f rest tr1 oe h
    simp [scanLoop, h]
  · intro tr tag f rest tr1 img oe h
    simp [scanLoop, h]

/-- Witness for C5: in noImagesWorld the directory stat fails with a
not-exist error and the lookup reports not-found without error; in okWorld
the first candidate yields nothing and the scan moves on, and the second
candidate yields image 7, which short-circuits the scan. -/
theorem C5_preload_scan_witness :
    preloadBootstrapImage noImagesWorld [] "/data" (.tag "t" "img:t") =
      ([.stat (imagesDir "/data")], (none, none)) ∧
    scanLoop okWorld [] "t" ["a.tar", "b.tar"] =
      scanLoop okWorld [.tarballImage "t" "a.tar"] "t" ["b.tar"] ∧
    scanLoop okWorld [.tarballImage "t" "a.tar"] "t" ["b.tar"] =
      ([.tarballImage "t" "a.tar", .tarballImage "t" "b.tar"], (some 7, none)) := by
  refine ⟨?_, ?_, ?_⟩
  · exact (C5_preload_scan noImagesWorld).1 [] "/data" "t" "img:t" (.prim "enoent") rfl rfl
  · exact (C5_preload_scan okWorld).2.1 [] "t" "a.tar" ["b.tar"]
      [.tarballImage "t" "a.tar"] none rfl
  · exact (C5_preload_scan okWorld).2.2 [.tarballImage "t" "a.tar"] "t" "b.tar" []
      [.tarballImage "t" "a.tar", .tarballImage "t" "b.tar"] 7 none rfl

/-! ## C6 -/

/-- C6: the suffix dispatch of preloadFile, evaluated at the input xtar.zst:
the code selects the zstd opener through its dotless "tar.zst" pattern,
while the suffix table of the specification (selectSuffixSpec, with the
leading dot) classifies the name as unhandled and demands an error; the
txt-skip and the unhandled-suffix error otherwise hold as claimed. -/
theorem C6_suffix_table (w : World) :
    selectSuffix "xtar.zst" = .archive .zstd ∧
    selectSuffixSpec "xtar.zst" = .unhandled ∧
    (∀ tr tag, preloadFile w tr tag "sha256sum.txt" = (tr, (none, none))) ∧
    (∀ tr tag, preloadFile w tr tag "archive.rar" =
      (tr, (none, some (.prim "unhandled file type")))) := by
  refine ⟨rfl, rfl, ?_, ?_⟩
  · intro tr tag
    rfl
  · intro tr tag
    rfl

/-- Witness for C6 at a concrete world and trace for the txt-skip and the
unhandled-suffix error. -/
theorem C6_suffix_table_witness :
    preloadFile okWorld [] "t" "sha256sum.txt" = ([], (none, none)) ∧
    preloadFile okWorld [] "t" "archive.rar" =
      ([], (none, some (.prim "unhandled file type"))) := by
  exact ⟨(C6_suffix_table okWorld).2.2.1 [] "t", (C6_suffix_table okWorld).2.2.2 [] "t"⟩

/-! ## C10 -/

/-- C10: a digest reference bypasses the local archive search entirely:
preloadBootstrapImage returns no image and no error without issuing any
filesystem operation; and a Stage run whose preload found nothing proceeds
to the remote registry pull. -/
theorem C10_digest_bypass :
    (∀ (w : World) tr dataDir d s,
      preloadBootstrapImage w tr dataDir (.digest d s) = (tr, (none, none))) ∧
    (∀ (w : World) sha dataDir pr rn ref rd,
      releaseRefDigest sha ref = .ok rd →
      w.preloadRes [] = .ok false →
      w.registriesRes [.preload] = none →
      Call.remotePull ∈ (Stage w sha dataDir pr rn ref).1) := by
  constructor
  · intro w tr dataDir d s
    rfl
  · intro w sha dataDir pr rn ref rd h1 h2 h3
    cases h4 : w.remoteRes [.preload, .getRegistries] with
    | some e =>
      have hsr : stageResolveRemote w [Call.preload] pr =
          ([Call.preload, Call.getRegistries, Call.remotePull],
            some (Err.wrap "failed to get runtime image" e)) := by
        simp [stageResolveRemote, doGetRegistries, doRemotePull, h3, h4]
      simp [Stage, doPreload, h1, h2, hsr]
    | none =>
      have hsr : stageResolveRemote w [Call.preload] pr =
          ([Call.preload, Call.getRegistries, Call.remotePull], none) := by
        simp [stageResolveRemote, doGetRegistries, doRemotePull, h3, h4]
      obtain ⟨e, he⟩ := stageFinish_trace_extend w
        [Call.preload, Call.getRegistries, Call.remotePull] dataDir rn
        (binDirForDigest dataDir rd)
      simp [Stage, doPreload, h1, h2, hsr, he]

/-- Witness for C10: in a world whose preload finds nothing, Stage with a
digest reference reaches the remote pull. -/
theorem C10_digest_bypass_witness :
    Call.remotePull ∈ (Stage { okWorld with preloadRes := fun _ => .ok false }
      (fun _ => []) "/data" "/etc/reg.yaml" "reg.example" (.digest "sha256:abc" "img")).1 := by
  exact C10_digest_bypass.2 { okWorld with preloadRes := fun _ => .ok false }
    (fun _ => []) "/data" "/etc/reg.yaml" "reg.example" (.digest "sha256:abc" "img")
    "abc" rfl rfl rfl

/-! ## C8 -/

/-- C8: whenever the staging directory was created successfully, the trace
of extractToDirs ends with its removal, on every exit path: extraction
failure, placement abort, and success alike. -/
theorem C8_staging_always_removed (w : World) (tr : List Call)
    (dataDir : String) (dirs : List (String × String)) (td : String)
    (h : w.tempDirRes tr dataDir = .ok td) :
    ∃ tr2, (extractToDirs w tr dataDir dirs).1 = tr2 ++ [.removeAll td] := by
  simp only [extractToDirs, doTempDir, doExtractImage, doCloseReader, doRemoveAll, h]
  try dsimp only
  cases h2 : w.extractRes (tr ++ [.tempDir dataDir]) td with
  | some e2 =>
    try simp only [h2]
    exact ⟨tr ++ [.tempDir dataDir, .extractImage td dirs, .closeReader], by simp⟩
  | none =>
    try simp only [h2]
    cases h3 : moveLoop w (tr ++ [.tempDir dataDir, .extractImage td dirs]) td dirs with
    | inr ab =>
      obtain ⟨tr3, e3⟩ := ab
      exact ⟨tr3 ++ [.closeReader], by simp [h2, h3]⟩
    | inl res =>
      obtain ⟨tr3, errs⟩ := res
      exact ⟨tr3 ++ [.closeReader], by simp [h2, h3]⟩

/-- Witness for C8 on a concrete successful run in okWorld. -/
theorem C8_staging_always_removed_witness :
    ∃ tr2, (extractToDirs okWorld [] "/data" []).1 = tr2 ++ [.removeAll "/data/runtime-1"] := by
  exact C8_staging_always_removed okWorld [] "/data" [] "/data/runtime-1" rfl

/-! ## C3 -/

/-- C3: the extraction plan of Stage always maps charts to the manifests
directory; it contains a bin entry, mapped to the per-identity bin
directory, exactly when that directory does not already exist; and a Stage
run against an already-populated bin directory (a world whose dirExists
answers true and whose operations all succeed) performs a charts-only
extraction yet still invokes the chart patching step, as the full trace
equation shows. -/
theorem C3_extraction_plan (sha : String → List Nat) :
    (∀ d rb b, ("charts", manifestsDir d) ∈ extractPaths d rb b) ∧
    (∀ d rb b, (("bin", rb) ∈ extractPaths d rb b ↔ b = false)) ∧
    (∀ (w : World) dataDir pr rn ref rd td,
      releaseRefDigest sha ref = .ok rd →
      (∀ tr, w.preloadRes tr = .ok true) →
      (∀ tr p, w.dirExistsRes tr p = true) →
      (∀ tr d, w.tempDirRes tr d = .ok td) →
      (∀ tr p, w.extractRes tr p = none) →
      (∀ tr p, w.statRes tr p = none) →
      (∀ tr a b, w.renameRes tr a b = none) →
      (∀ tr p m, w.chmodRes tr p m = none) →
      (∀ tr a b, w.setChartRes tr a b = none) →
      Stage w sha dataDir pr rn ref =
        ([.preload, .dirExistsQ (binDirForDigest dataDir rd), .tempDir dataDir,
          .extractImage td [("charts", manifestsDir dataDir)],
          .stat (pathJoin td "charts"), .stat (parentDir (manifestsDir dataDir)),
          .rename (pathJoin td "charts") (manifestsDir dataDir),
          .closeReader, .removeAll td,
          .chmod (binDirForDigest dataDir rd) 493,
          .setChartValuesCall dataDir rn,
          .removeAll (symlinkBinDir dataDir),
          .symlink (binDirForDigest dataDir rd) (symlinkBinDir dataDir)],
          .ok (binDirForDigest dataDir rd))) := by
  refine ⟨?_, ?_, ?_⟩
  · intro d rb b
    cases b <;> simp [extractPaths]
  · intro d rb b
    cases b <;> simp [extractPaths]
  · intro w dataDir pr rn ref rd td h1 hp hde htd hex hst hrn hch hsc
    simp [Stage, stageFinish, extractToDirs, moveLoop, moveEntry, moveSubtree,
      doPreload, doDirExists, doTempDir, doExtractImage, doStat, doRename,
      doCloseReader, doRemoveAll, doChmod, doSetChartValues, doSymlink,
      extractPaths, merrNewErrors, h1, hp, hde, htd, hex, hst, hrn, hch, hsc]

/-- Witness for C3 on the rerun world (bin directory already present, all
operations succeeding) at a concrete tag reference. -/
theorem C3_extraction_plan_witness :
    Stage rerunWorld (fun _ => []) "/data" "/etc/reg.yaml" "reg.example" (.tag "v1" "img:v1") =
      ([.preload,
        .dirExistsQ (binDirForDigest "/data" ("v1" ++ "-" ++ (hexEncode []).take 12)),
        .tempDir "/data",
        .extractImage "/data/runtime-1" [("charts", manifestsDir "/data")],
        .stat (pathJoin "/data/runtime-1" "charts"),
        .stat (parentDir (manifestsDir "/data")),
        .rename (pathJoin "/data/runtime-1" "charts") (manifestsDir "/data"),
        .closeReader, .removeAll "/data/runtime-1",
        .chmod (binDirForDigest "/data" ("v1" ++ "-" ++ (hexEncode []).take 12)) 493,
        .setChartValuesCall "/data" "reg.example",
        .removeAll (symlinkBinDir "/data"),
        .symlink (binDirForDigest "/data" ("v1" ++ "-" ++ (hexEncode []).take 12))
          (symlinkBinDir "/data")],
        .ok (binDirForDigest "/data" ("v1" ++ "-" ++ (hexEncode []).take 12))) := by
  exact (C3_extraction_plan (fun _ => [])).2.2 rerunWorld "/data" "/etc/reg.yaml"
    "reg.example" (.tag "v1" "img:v1") ("v1" ++ "-" ++ (hexEncode []).take 12)
    "/data/runtime-1" rfl (fun _ => rfl) (fun _ _ => rfl) (fun _ _ => rfl)
    (fun _ _ => rfl) (fun _ _ => rfl) (fun _ _ _ => rfl) (fun _ _ _ => rfl)
    (fun _ _ _ => rfl)

/-! ## C9 -/

theorem stageFinish_ok (w : World) (tr : List Call) (dataDir rn rb : String)
    (tr2 : List Call) (res : String)
    (h : stageFinish w tr dataDir rn rb = (tr2, .ok res)) :
    res = rb ∧ ∃ tr3, tr2 = tr3 ++ [.removeAll (symlinkBinDir dataDir),
      .symlink rb (symlinkBinDir dataDir)] := by
  simp only [stageFinish, doDirExists, doChmod, doSetChartValues, doRemoveAll,
    doSymlink] at h
  cases h1 : extractToDirs w (tr ++ [.dirExistsQ rb]) dataDir
      (extractPaths dataDir rb (w.dirExistsRes tr rb)) with
  | mk tr4 o =>
    rw [h1] at h
    cases o with
    | some e4 => simp at h
    | none =>
      try dsimp only at h
      cases h2 : w.chmodRes tr4 rb 493 with
      | some e5 =>
        rw [h2] at h
        simp at h
      | none =>
        rw [h2] at h
        try dsimp only at h
        cases h3 : w.setChartRes (tr4 ++ [.chmod rb 493]) dataDir rn with
        | some e6 =>
          rw [h3] at h
          simp at h
        | none =>
          rw [h3] at h
          try dsimp only at h
          obtain ⟨htr, hres⟩ := Prod.mk.injEq .. ▸ h
          refine ⟨by injection hres with h5; exact h5.symm, ?_⟩
          refine ⟨tr4 ++ [.chmod rb 493, .setChartValuesCall dataDir rn], ?_⟩
          rw [← htr]
          simp

/-- C9: every successful run of Stage ends by removing dataDir/bin and
creating a symlink there pointing at the returned per-identity bin
directory, which is the bin directory of the runtime identity computed from
the reference. -/
theorem C9_symlink_replaced (w : World) (sha : String → List Nat)
    (dataDir pr rn : String) (ref : Ref) (tr : List Call) (res : String)
    (h : Stage w sha dataDir pr rn ref = (tr, .ok res)) :
    (∃ rd, releaseRefDigest sha ref = .ok rd ∧ res = binDirForDigest dataDir rd) ∧
    ∃ tr3, tr = tr3 ++ [.removeAll (symlinkBinDir dataDir),
      .symlink res (symlinkBinDir dataDir)] := by
  simp only [Stage, doPreload] at h
  cases h1 : releaseRefDigest sha ref with
  | error e => rw [h1] at h; simp at h
  | ok rd =>
    rw [h1] at h
    try dsimp only at h
    cases h2 : w.preloadRes [] with
    | error e => rw [h2] at h; simp at h
    | ok found =>
      rw [h2] at h
      try dsimp only at h
      cases found with
      | true =>
        try dsimp only at h
        obtain ⟨hres, htr⟩ := stageFinish_ok w [.preload] dataDir rn
          (binDirForDigest dataDir rd) tr res h
        exact ⟨⟨rd, rfl, hres⟩, hres ▸ htr⟩
      | false =>
        cases h3 : stageResolveRemote w ([] ++ [.preload]) pr with
        | mk trR rerr =>
          rw [h3] at h
          cases rerr with
          | some e => simp at h
          | none =>
            have h4 : stageFinish w trR dataDir rn (binDirForDigest dataDir rd) =
                (tr, .ok res) := by simpa using h
            obtain ⟨hres, htr⟩ := stageFinish_ok w trR dataDir rn
              (binDirForDigest dataDir rd) tr res h4
            exact ⟨⟨rd, rfl, hres⟩, hres ▸ htr⟩

/-- Witness for C9 on a concrete successful Stage run in okWorld. -/
theorem C9_symlink_replaced_witness :
    ∃ p, (∃ rd, releaseRefDigest (fun _ => []) (.tag "v1" "img:v1") = .ok rd ∧
        p = binDirForDigest "/data" rd) ∧
      ∃ tr3, (Stage okWorld (fun _ => []) "/data" "/etc/reg.yaml" "reg.example"
          (.tag "v1" "img:v1")).1 =
        tr3 ++ [.removeAll (symlinkBinDir "/data"), .symlink p (symlinkBinDir "/data")] := by
  refine ⟨(Stage okWorld (fun _ => []) "/data" "/etc/reg.yaml" "reg.example"
    (.tag "v1" "img:v1")).2.toOption.getD "", ?_⟩
  exact C9_symlink_replaced okWorld (fun _ => []) "/data" "/etc/reg.yaml" "reg.example"
    (.tag "v1" "img:v1") _ _ rfl

/-! ## C4 -/

theorem getKey_setKey_self (m : List (String × IntOrString)) (k : String)
    (v : IntOrString) : getKey (setKey m k v) k = v := by
  induction m with
  | nil => simp [setKey, getKey]
  | cons hd rest ih =>
    obtain ⟨k0, v0⟩ := hd
    by_cases h : k0 = k
    · simp [setKey, getKey, h]
    · simp [setKey, getKey, h, ih]

theorem getKey_setKey_ne (m : List (String × IntOrString)) (k kx : String)
    (v : IntOrString) (h : kx ≠ k) : getKey (setKey m kx v) k = getKey m k := by
  induction m with
  | nil => simp [setKey, getKey, h]
  | cons hd rest ih =>
    obtain ⟨k0, v0⟩ := hd
    by_cases h0 : k0 = kx
    · subst h0
      simp [setKey, getKey, h]
    · by_cases h1 : k0 = k
      · simp [setKey, getKey, h0, h1, Ne.symm h]
      · simp [setKey, getKey, h0, h1, ih]

/-- After one pass of the rewrite core, the two override keys hold exactly
the desired values and JobImage holds the recomputed value. -/
theorem rewriteChartCore_values (dj dd reg : String) (c : HelmChart) :
    ∃ m, ((rewriteChartCore dj dd reg c).1).set = some m ∧
      iosStrVal (getKey m "global.rke2DataDir") = dd ∧
      iosStrVal (getKey m "global.systemDefaultRegistry") = reg ∧
      ((rewriteChartCore dj dd reg c).1).jobImage =
        (if reg ≠ "" then reg ++ "/" ++ dj else dj) := by
  unfold rewriteChartCore
  have hne : "global.systemDefaultRegistry" ≠ "global.rke2DataDir" := by decide
  by_cases h1 : iosStrVal (getKey (match c.set with | none => [] | some m => m)
      "global.rke2DataDir") ≠ dd <;>
    by_cases h2 : iosStrVal (getKey (if h1True : True then
      (if iosStrVal (getKey (match c.set with | none => [] | some m => m)
        "global.rke2DataDir") ≠ dd then
        setKey (match c.set with | none => [] | some m => m) "global.rke2DataDir"
          (.ofString dd)
      else (match c.set with | none => [] | some m => m)) else [])
      "global.systemDefaultRegistry") ≠ reg
  all_goals {
    refine ⟨_, rfl, ?_, ?_, rfl⟩
    all_goals simp_all [getKey_setKey_self, getKey_setKey_ne, hne, iosStrVal]
  }

/-- Running the rewrite core a second time changes nothing and reports no
change. -/
theorem rewriteChartCore_idem (dj dd reg : String) (c : HelmChart) :
    rewriteChartCore dj dd reg (rewriteChartCore dj dd reg c).1 =
      ((rewriteChartCore dj dd reg c).1, false) := by
  obtain ⟨m, hm, hA, hB, hJ⟩ := rewriteChartCore_values dj dd reg c
  cases hc : rewriteChartCore dj dd reg c with
  | mk c1 ch =>
    rw [hc] at hm hJ
    simp only at hm hJ
    cases c1 with
    | mk cset cjob =>
      simp only at hm hJ
      subst hm hJ
      unfold rewriteChartCore
      simp [hA, hB]

theorem rewriteChartFile_idem (dj dd reg : String) (d : Doc) :
    rewriteChartFile dj dd reg (rewriteChartFile dj dd reg d).1 =
      ((rewriteChartFile dj dd reg d).1, false) := by
  cases d with
  | undecodable s => rfl
  | otherKind s => rfl
  | chart c =>
    have hidem := rewriteChartCore_idem dj dd reg c
    cases hc : rewriteChartCore dj dd reg c with
    | mk c2 changed =>
      rw [hc] at hidem
      simp only at hidem
      cases changed with
      | false =>
        have h1 : rewriteChartFile dj dd reg (.chart c) = (.chart c, false) := by
          simp [rewriteChartFile, hc]
        rw [h1]
        simpa using h1
      | true =>
        have h1 : rewriteChartFile dj dd reg (.chart c) = (.chart c2, true) := by
          simp [rewriteChartFile, hc]
        rw [h1]
        simp [rewriteChartFile, hidem]

theorem setChartValuesModel_idem (dj dd reg : String)
    (files : List (String × Doc)) :
    setChartValuesModel dj dd reg (setChartValuesModel dj dd reg files).1 =
      ((setChartValuesModel dj dd reg files).1, []) := by
  induction files with
  | nil => rfl
  | cons hd rest ih =>
    obtain ⟨p, d⟩ := hd
    have hfile := rewriteChartFile_idem dj dd reg d
    simp only [setChartValuesModel]
    by_cases hy : isYamlFile p = true
    · rw [if_pos hy]
      cases hf : rewriteChartFile dj dd reg d with
      | mk d2 wrote =>
        rw [hf] at hfile
        simp only at hfile
        cases wrote with
        | false =>
          try dsimp only
          simp only [setChartValuesModel]
          rw [if_pos hy]
          simp [ih, hfile]
        | true =>
          try dsimp only
          simp only [setChartValuesModel]
          rw [if_pos hy]
          simp [ih, hfile]
    · rw [if_neg hy]
      try dsimp only
      simp only [setChartValuesModel]
      rw [if_neg hy]
      simp [ih]

/-- C4: the manifest rewrite is idempotent: after one pass the stored Set
overrides and the JobImage already equal the desired values, so the change
flag stays false on a second pass; a second pass over one file writes
nothing and leaves the bytes unchanged; and a second directory pass writes
no file and leaves every file identical to what the first pass produced. -/
theorem C4_rewrite_idempotent (dj dd reg : String) :
    (∀ c m, ((rewriteChartCore dj dd reg c).1).set = some m →
      iosStrVal (getKey m "global.rke2DataDir") = dd ∧
      iosStrVal (getKey m "global.systemDefaultRegistry") = reg) ∧
    (∀ c : HelmChart, rewriteChartCore dj dd reg (rewriteChartCore dj dd reg c).1 =
      ((rewriteChartCore dj dd reg c).1, false)) ∧
    (∀ d : Doc, rewriteChartFile dj dd reg (rewriteChartFile dj dd reg d).1 =
      ((rewriteChartFile dj dd reg d).1, false)) ∧
    (∀ files, setChartValuesModel dj dd reg (setChartValuesModel dj dd reg files).1 =
      ((setChartValuesModel dj dd reg files).1, [])) := by
  refine ⟨?_, rewriteChartCore_idem dj dd reg, rewriteChartFile_idem dj dd reg,
    setChartValuesModel_idem dj dd reg⟩
  intro c m hm
  obtain ⟨m2, hm2, hA, hB, _⟩ := rewriteChartCore_values dj dd reg c
  rw [hm] at hm2
  cases hm2
  exact ⟨hA, hB⟩

/-- Witness for C4 on a concrete chart manifest directory: one HelmChart
file plus one unrelated file; the second pass writes nothing. -/
theorem C4_rewrite_idempotent_witness :
    (iosStrVal (getKey [("global.rke2DataDir", IntOrString.ofString "/d"),
        ("global.systemDefaultRegistry", IntOrString.ofString "r")]
        "global.rke2DataDir") = "/d" ∧
      iosStrVal (getKey [("global.rke2DataDir", IntOrString.ofString "/d"),
        ("global.systemDefaultRegistry", IntOrString.ofString "r")]
        "global.systemDefaultRegistry") = "r") ∧
    setChartValuesModel "job" "/d" "r"
      (setChartValuesModel "job" "/d" "r"
        [("c.yaml", .chart { set := none, jobImage := "old" }),
         ("notes.txt", .undecodable "x")]).1 =
      ((setChartValuesModel "job" "/d" "r"
        [("c.yaml", .chart { set := none, jobImage := "old" }),
         ("notes.txt", .undecodable "x")]).1, []) := by
  constructor
  · exact (C4_rewrite_idempotent "job" "/d" "r").1
      { set := none, jobImage := "old" }
      [("global.rke2DataDir", IntOrString.ofString "/d"),
       ("global.systemDefaultRegistry", IntOrString.ofString "r")] rfl
  · exact (C4_rewrite_idempotent "job" "/d" "r").2.2.2
      [("c.yaml", .chart { set := none, jobImage := "old" }),
       ("notes.txt", .undecodable "x")]

/-! ## C2 -/

/-- C2 counterexample: in abortWorld the first planned subtree dies in
MkdirAll while creating its missing destination parent; extractToDirs then
returns that single error, and the second planned subtree is never examined
(neither its staged source stat nor its rename appears in the trace),
although its placement would have succeeded: the loop aborted on the first
failure instead of accumulating it and continuing. -/
theorem C2_placement_counterexample :
    (extractToDirs abortWorld [] "/data" [("a", "/dst/a"), ("b", "/dst/b")]).2 =
      some (.prim "mkdirfail") ∧
    Call.stat "/data/runtime-1/b" ∉
      (extractToDirs abortWorld [] "/data" [("a", "/dst/a"), ("b", "/dst/b")]).1 ∧
    Call.rename "/data/runtime-1/b" "/dst/b" ∉
      (extractToDirs abortWorld [] "/data" [("a", "/dst/a"), ("b", "/dst/b")]).1 := by
  refine ⟨rfl, ?_, ?_⟩ <;> decide

/-- C2 amended: a missing staged source is recorded and the remaining
subtrees are still processed; a rename failing because the destination
exists falls back to the per-file merge over the listed files; a per-file
collision removes the destination file and retries the rename exactly once,
recording a second failure and continuing with the remaining files; the
failures collected by the loop are returned together at the end as the
aggregated error, and an abort (from a failed MkdirAll of a destination
parent) is returned alone. -/
theorem C2_placement_errors (w : World) :
    (∀ tr td source dest rest e, w.statRes tr (pathJoin td source) = some e →
      moveLoop w tr td ((source, dest) :: rest) =
        (match moveLoop w (tr ++ [.stat (pathJoin td source)]) td rest with
          | .inr ab => .inr ab
          | .inl (tr2, errs) => .inl (tr2, e :: errs))) ∧
    (∀ tr ts dest e files, w.renameRes tr ts dest = some e → w.isExist e = true →
      w.readDirRes (tr ++ [.rename ts dest]) ts = .ok files →
      moveSubtree w tr ts dest =
        moveFileLoop w (tr ++ [.rename ts dest, .readDir ts]) ts dest files) ∧
    (∀ tr ts d f rest e,
      w.renameRes tr (pathJoin ts f) (pathJoin d f) = some e →
      w.isExist e = true →
      w.removeAllRes (tr ++ [.rename (pathJoin ts f) (pathJoin d f)])
        (pathJoin d f) = none →
      moveFileLoop w tr ts d (f :: rest) =
        (match w.renameRes (tr ++ [.rename (pathJoin ts f) (pathJoin d f),
            .removeAll (pathJoin d f)]) (pathJoin ts f) (pathJoin d f) with
          | none => moveFileLoop w (tr ++ [.rename (pathJoin ts f) (pathJoin d f),
              .removeAll (pathJoin d f), .rename (pathJoin ts f) (pathJoin d f)])
              ts d rest
          | some e3 =>
            ((moveFileLoop w (tr ++ [.rename (pathJoin ts f) (pathJoin d f),
                .removeAll (pathJoin d f), .rename (pathJoin ts f) (pathJoin d f)])
                ts d rest).1,
              .wrap ("failed to rename " ++ pathJoin ts f ++ " to " ++ pathJoin d f) e3 ::
                (moveFileLoop w (tr ++ [.rename (pathJoin ts f) (pathJoin d f),
                  .removeAll (pathJoin d f), .rename (pathJoin ts f) (pathJoin d f)])
                  ts d rest).2))) ∧
    (∀ tr dataDir dirs td tr3 errs, w.tempDirRes tr dataDir = .ok td →
      w.extractRes (tr ++ [.tempDir dataDir]) td = none →
      moveLoop w (tr ++ [.tempDir dataDir, .extractImage td dirs]) td dirs =
        .inl (tr3, errs) →
      (extractToDirs w tr dataDir dirs).2 = merrNewErrors errs) ∧
    (∀ tr dataDir dirs td tr3 e, w.tempDirRes tr dataDir = .ok td →
      w.extractRes (tr ++ [.tempDir dataDir]) td = none →
      moveLoop w (tr ++ [.tempDir dataDir, .extractImage td dirs]) td dirs =
        .inr (tr3, e) →
      (extractToDirs w tr dataDir dirs).2 = some e) := by
  refine ⟨?_, ?_, ?_, ?_, ?_⟩
  · intro tr td source dest rest e h1
    simp only [moveLoop, moveEntry, doStat, h1]
    cases hml : moveLoop w (tr ++ [.stat (pathJoin td source)]) td rest with
    | inr ab =>
      try simp only [hml]
      try simp
    | inl res =>
      obtain ⟨tr2, errs⟩ := res
      try simp only [hml]
      try simp
  · intro tr ts dest e files h1 h2 h3
    simp [moveSubtree, doRename, doReadDir, h1, h2, h3]
  · intro tr ts d f rest e h1 h2 h3
    simp only [moveFileLoop, doRename, doRemoveAll, h1, h2]
    try dsimp only
    try rw [if_pos rfl]
    try simp only [h3]
    cases h4 : w.renameRes (tr ++ [.rename (pathJoin ts f) (pathJoin d f),
        .removeAll (pathJoin d f)]) (pathJoin ts f) (pathJoin d f) with
    | none =>
      try simp only [h4]
      simp [h3, h4]
    | some e3 =>
      try simp only [h4]
      simp [h3, h4]
  · intro tr dataDir dirs td tr3 errs h1 h2 h3
    simp [extractToDirs, doTempDir, doExtractImage, doCloseReader, doRemoveAll,
      h1, h2, h3]
  · intro tr dataDir dirs td tr3 e h1 h2 h3
    simp [extractToDirs, doTempDir, doExtractImage, doCloseReader, doRemoveAll,
      h1, h2, h3]

/-- Witness for C2 on concrete worlds: a missing staged source in
mergeWorld, the merge fallback with its remove-and-retry in mergeWorld, an
accumulated empty failure list in okWorld, and an abort in abortWorld. -/
theorem C2_placement_errors_witness :
    moveLoop mergeWorld [] "/t" [("a", "/dst/a")] =
      (match moveLoop mergeWorld [.stat (pathJoin "/t" "a")] "/t" [] with
        | .inr ab => .inr ab
        | .inl (tr2, errs) => .inl (tr2, Err.prim "missing" :: errs)) ∧
    moveSubtree mergeWorld [] "/t/b" "/dst/b" =
      moveFileLoop mergeWorld [.rename "/t/b" "/dst/b", .readDir "/t/b"]
        "/t/b" "/dst/b" ["f"] ∧
    moveFileLoop mergeWorld [] "/t/b" "/dst/b" ["f"] =
      (match mergeWorld.renameRes [.rename (pathJoin "/t/b" "f") (pathJoin "/dst/b" "f"),
          .removeAll (pathJoin "/dst/b" "f")] (pathJoin "/t/b" "f") (pathJoin "/dst/b" "f") with
        | none => moveFileLoop mergeWorld [.rename (pathJoin "/t/b" "f") (pathJoin "/dst/b" "f"),
            .removeAll (pathJoin "/dst/b" "f"), .rename (pathJoin "/t/b" "f") (pathJoin "/dst/b" "f")]
            "/t/b" "/dst/b" []
        | some e3 =>
          ((moveFileLoop mergeWorld [.rename (pathJoin "/t/b" "f") (pathJoin "/dst/b" "f"),
              .removeAll (pathJoin "/dst/b" "f"), .rename (pathJoin "/t/b" "f") (pathJoin "/dst/b" "f")]
              "/t/b" "/dst/b" []).1,
            .wrap ("failed to rename " ++ pathJoin "/t/b" "f" ++ " to " ++ pathJoin "/dst/b" "f") e3 ::
              (moveFileLoop mergeWorld [.rename (pathJoin "/t/b" "f") (pathJoin "/dst/b" "f"),
                .removeAll (pathJoin "/dst/b" "f"), .rename (pathJoin "/t/b" "f") (pathJoin "/dst/b" "f")]
                "/t/b" "/dst/b" []).2)) ∧
    (extractToDirs okWorld [] "/data" [("a", "/dst/a")]).2 = merrNewErrors [] ∧
    (extractToDirs abortWorld [] "/data" [("a", "/dst/a")]).2 =
      some (.prim "mkdirfail") := by
  refine ⟨?_, ?_, ?_, ?_, ?_⟩
  · exact (C2_placement_errors mergeWorld).1 [] "/t" "a" "/dst/a" []
      (.prim "missing") rfl
  · exact (C2_placement_errors mergeWorld).2.1 [] "/t/b" "/dst/b"
      (.prim "exists") ["f"] rfl rfl rfl
  · exact (C2_placement_errors mergeWorld).2.2.1 [] "/t/b" "/dst/b" "f" []
      (.prim "exists") rfl rfl rfl
  · exact (C2_placement_errors okWorld).2.2.2.1 [] "/data" [("a", "/dst/a")]
      "/data/runtime-1"
      [.tempDir "/data", .extractImage "/data/runtime-1" [("a", "/dst/a")],
        .stat (pathJoin "/data/runtime-1" "a"), .stat (parentDir "/dst/a"),
        .rename (pathJoin "/data/runtime-1" "a") "/dst/a"] [] rfl rfl rfl
  · exact (C2_placement_errors abortWorld).2.2.2.2 [] "/data" [("a", "/dst/a")]
      "/data/runtime-1"
      [.tempDir "/data", .extractImage "/data/runtime-1" [("a", "/dst/a")],
        .stat (pathJoin "/data/runtime-1" "a"), .stat (parentDir "/dst/a"),
        .mkdirAll (parentDir "/dst/a")] (.prim "mkdirfail") rfl rfl rfl

end RKE2
